import Mathlib

/-!
Verification of the debate-arena server core (src/index.js): the join
workflow (`POST /debates/:id/join`) and the leaderboard aggregation
(`GET /leaderboard`), shallowly embedded over explicit store state.
-/

namespace DebateArena

/-- A debate document, as created by `POST /debates` (src/index.js:50-59):
title, description, tags, category, duration, the two side arrays and a
creation timestamp.  The Mongo `_id` is modelled as the `id` field. -/
structure Debate where
  id : String
  title : String
  description : String
  tags : List String
  category : String
  duration : String
  support : List String
  oppose : List String
  createdAt : Int
deriving DecidableEq, Repr

/-- A joined-debate document, exactly the fields written by the `$set`
of the upsert at src/index.js:97-113. -/
structure JoinedDebate where
  debateId : String
  name : String
  side : String
  title : String
  description : String
  category : String
  duration : String
  tags : List String
  joinedAt : Int
deriving DecidableEq, Repr

/-- The document store state touched by the join workflow: the `debates`
collection and the `joinedDebate` collection. -/
structure Store where
  debates : List Debate
  joined : List JoinedDebate
deriving DecidableEq, Repr, Inhabited

/-- Outcome of the join endpoint: HTTP 200 with the echoed side,
HTTP 400 (name/side validation), HTTP 404 (debate not found), or
HTTP 500 from the catch block (src/index.js:116-119), reached in
particular when `new ObjectId(id)` throws on a malformed identifier. -/
inductive JoinOutcome where
  | ok (side : String)
  | invalidArgument
  | notFound
  | serverError
deriving DecidableEq, Repr

/-- Hex digit as accepted by the ObjectId constructor's 24-character
hex-string check (case-insensitive). -/
def isHexDigit (c : Char) : Bool :=
  decide (('0' ≤ c ∧ c ≤ '9') ∨ ('a' ≤ c ∧ c ≤ 'f') ∨ ('A' ≤ c ∧ c ≤ 'F'))

/-- Whether `new ObjectId(id)` (src/index.js:80) accepts the string: the
driver requires a 24-character hex string and throws otherwise. -/
def isValidObjectId (id : String) : Bool :=
  decide (id.length = 24) && id.data.all isHexDigit

/-- Mongo `updateOne`: apply `f` to the first document matching `p`,
leaving every other document unchanged. -/
def updateFirst (p : α → Bool) (f : α → α) : List α → List α
  | [] => []
  | x :: xs => if p x then f x :: xs else x :: updateFirst p f xs

/-- Mongo `$addToSet`: append the value if it is not already present. -/
def addToSet [DecidableEq α] (x : α) (l : List α) : List α :=
  if x ∈ l then l else l ++ [x]

/-- ASCII lower-casing of one character, as `String.prototype.toLowerCase`
acts on the ASCII side names used here. -/
def jsToLowerChar (c : Char) : Char :=
  if 'A' ≤ c ∧ c ≤ 'Z' then Char.ofNat (c.toNat + 32) else c

/-- Model of `side.toLowerCase()` from src/index.js:90 (ASCII). -/
def jsToLower (s : String) : String :=
  String.mk (s.data.map jsToLowerChar)

/-- Lookup `debateCollection.findOne` by id: first debate with the given id. -/
def getDebate (st : Store) (id : String) : Option Debate :=
  st.debates.find? (fun d => decide (d.id = id))

/-- Lookup `joinedDebateCollection.findOne` by the `(debateId, name)` key. -/
def getJoined (st : Store) (id name : String) : Option JoinedDebate :=
  st.joined.find? (fun j => decide (j.debateId = id ∧ j.name = name))

/-- Effect of `$pull: {support: name, oppose: name}` on one document:
every occurrence of the name leaves both arrays. -/
def pullDoc (name : String) (d : Debate) : Debate :=
  { d with
    support := d.support.filter (fun s => decide (s ≠ name))
    oppose := d.oppose.filter (fun s => decide (s ≠ name)) }

/-- Effect of `$addToSet: {[side.toLowerCase()]: name}` on one document. -/
def addDoc (side name : String) (d : Debate) : Debate :=
  if jsToLower side = "support" then { d with support := addToSet name d.support }
  else if jsToLower side = "oppose" then { d with oppose := addToSet name d.oppose }
  else d

/-- Step 1 of the join workflow (src/index.js:84-87): `$pull` the name from
both the `support` and `oppose` arrays of the referenced debate. -/
def pullBoth (id name : String) (ds : List Debate) : List Debate :=
  updateFirst (fun d => decide (d.id = id)) (pullDoc name) ds

/-- Step 2 of the join workflow (src/index.js:90-94): `$addToSet` the name
into the array named by `side.toLowerCase()`. -/
def addToSide (id name side : String) (ds : List Debate) : List Debate :=
  updateFirst (fun d => decide (d.id = id)) (addDoc side name) ds

/-- Step 3 of the join workflow (src/index.js:97-113): upsert into
`joinedDebateCollection` keyed by `{debateId, name}`, `$set`-ting every
field from the caller's arguments and the debate snapshot `debate`. -/
def upsertJoined (id name side : String) (debate : Debate) (now : Int)
    (js : List JoinedDebate) : List JoinedDebate :=
  let doc : JoinedDebate :=
    { debateId := id
      name := name
      side := side
      title := debate.title
      description := debate.description
      category := debate.category
      duration := debate.duration
      tags := debate.tags
      joinedAt := now }
  if js.any (fun j => decide (j.debateId = id ∧ j.name = name)) then
    updateFirst (fun j => decide (j.debateId = id ∧ j.name = name)) (fun _ => doc) js
  else
    js ++ [doc]

/-- The join endpoint `POST /debates/:id/join` (src/index.js:71-120):
validate name and side (400 before the try block), construct the
ObjectId — a malformed identifier throws into the catch and yields the
generic 500 — then look up the debate (404 when absent) and run the
three writes.  `now` is the clock value used for the fresh `joinedAt`
timestamp.  The returned store is the post-call store (unchanged on
every error path, which all return before any write). -/
def joinDebate (st : Store) (id name side : String) (now : Int) :
    JoinOutcome × Store :=
  if name = "" ∨ ¬(side = "Support" ∨ side = "Oppose") then
    (JoinOutcome.invalidArgument, st)
  else if ¬ isValidObjectId id then
    (JoinOutcome.serverError, st)
  else
    match getDebate st id with
    | none => (JoinOutcome.notFound, st)
    | some debate =>
      let ds1 := pullBoth id name st.debates
      let ds2 := addToSide id name side ds1
      let js1 := upsertJoined id name side debate now st.joined
      (JoinOutcome.ok side, ⟨ds2, js1⟩)

/-- Number of joined-debate records keyed by `(id, name)`. -/
def countJoined (st : Store) (id name : String) : Nat :=
  (st.joined.filter (fun j => decide (j.debateId = id ∧ j.name = name))).length

/-- A sequence of repeated `join` calls with identical arguments, at the
given sequence of clock values; `none` if any call fails. -/
def joinSeq (st : Store) (id name side : String) : List Int → Option Store
  | [] => some st
  | t :: ts =>
    match joinDebate st id name side t with
    | (JoinOutcome.ok _, st') => joinSeq st' id name side ts
    | _ => none

/-! ### Leaderboard (`GET /leaderboard`, src/index.js:155-194) -/

/-- A vote record from the `leaderboard` collection: the fields the
aggregation pipeline reads (`userName`, `debateId`, `votes`) plus the
`createdAt` timestamp (milliseconds) matched against the window. -/
structure VoteRecord where
  userName : String
  debateId : String
  votes : Int
  createdAt : Int
deriving DecidableEq, Repr

/-- The components of `new Date()` that the leaderboard reads:
`getFullYear()`, `getMonth()` (0-based) and `getDate()`. -/
structure NowParts where
  year : Int
  month : Int
  day : Int
deriving DecidableEq, Repr

/-- Days since the Unix epoch of the Gregorian date `(y, m, d)` with
`1 ≤ m ≤ 12`; `d` may be any integer, matching the Date normalization
that rolls out-of-range days across month boundaries (the civil-from-days
formula is affine in `d`). -/
def civilDays (y m d : Int) : Int :=
  let y1 := if m ≤ 2 then y - 1 else y
  let era := y1.ediv 400
  let yoe := y1 - era * 400
  let mp := if 2 < m then m - 3 else m + 9
  let doy := (153 * mp + 2).ediv 5 + (d - 1)
  let doe := yoe * 365 + yoe.ediv 4 - yoe.ediv 100 + doy
  era * 146097 + doe - 719468

/-- Days since the epoch of `new Date(y, mJS, d)` with the JS 0-based,
arbitrary-integer month (normalized into the year) and arbitrary
integer day. The constructed Date is at midnight. -/
def jsDateDays (y mJS d : Int) : Int :=
  civilDays (y + mJS.ediv 12) (mJS.emod 12 + 1) d

/-- Milliseconds since the epoch of `new Date(y, mJS, d)` (midnight). -/
def jsDateMs (y mJS d : Int) : Int :=
  86400000 * jsDateDays y mJS d

/-- The `startDate` for `filter=weekly` (src/index.js:161):
`new Date(now.getFullYear(), now.getMonth(), now.getDate() - 7)`. -/
def weeklyStart (now : NowParts) : Int :=
  jsDateMs now.year now.month (now.day - 7)

/-- The `startDate` for `filter=monthly` (src/index.js:163):
`new Date(now.getFullYear(), now.getMonth() - 1, now.getDate())`. -/
def monthlyStart (now : NowParts) : Int :=
  jsDateMs now.year (now.month - 1) now.day

/-- The `$match` stage: `{createdAt: {$gte: startDate}}` when a start
date was computed, the empty match otherwise (src/index.js:156-167). -/
def matchedRecords (filter : String) (now : NowParts) (rs : List VoteRecord) :
    List VoteRecord :=
  if filter = "weekly" then rs.filter (fun r => decide (weeklyStart now ≤ r.createdAt))
  else if filter = "monthly" then rs.filter (fun r => decide (monthlyStart now ≤ r.createdAt))
  else rs

/-- Output row of the first `$group` stage: one row per
`(userName, debateId)` with that debate's vote subtotal. -/
structure Row where
  userName : String
  debateId : String
  totalVotesPerDebate : Int
deriving DecidableEq, Repr

/-- Output of the second `$group` stage. -/
structure Entry where
  userName : String
  totalVotes : Int
  debatesParticipated : Int
deriving DecidableEq, Repr

/-- The distinct `(userName, debateId)` keys present in the records. -/
def pairKeys (rs : List VoteRecord) : List (String × String) :=
  (rs.map (fun r => (r.userName, r.debateId))).dedup

/-- Vote subtotal of one `(userName, debateId)` group. -/
def subtotal (rs : List VoteRecord) (k : String × String) : Int :=
  ((rs.filter (fun r => decide (r.userName = k.1 ∧ r.debateId = k.2))).map
    (fun r => r.votes)).sum

/-- The stage-1 output row of one `(userName, debateId)` group. -/
def rowOf (rs : List VoteRecord) (k : String × String) : Row :=
  { userName := k.1, debateId := k.2, totalVotesPerDebate := subtotal rs k }

/-- First `$group` stage (src/index.js:172-177): group by
`(userName, debateId)`, `$sum`-ming `votes`. -/
def stage1 (rs : List VoteRecord) : List Row :=
  (pairKeys rs).map (rowOf rs)

/-- The distinct user names among the stage-1 rows. -/
def userKeys (rows : List Row) : List String :=
  (rows.map (fun w => w.userName)).dedup

/-- The stage-2 output entry of one `userName` group. -/
def entryOf (rows : List Row) (u : String) : Entry :=
  { userName := u
    totalVotes :=
      ((rows.filter (fun w => decide (w.userName = u))).map
        (fun w => w.totalVotesPerDebate)).sum
    debatesParticipated :=
      ((rows.filter (fun w => decide (w.userName = u))).length : Int) }

/-- Second `$group` stage (src/index.js:178-184): group by `userName`,
`$sum`-ming the subtotals into `totalVotes` and `$sum: 1` counting the
rows into `debatesParticipated`. -/
def stage2 (rows : List Row) : List Entry :=
  (userKeys rows).map (entryOf rows)

/-- Insert an entry into a list sorted by `totalVotes` descending. -/
def insertDesc (e : Entry) : List Entry → List Entry
  | [] => [e]
  | x :: xs => if x.totalVotes < e.totalVotes then e :: x :: xs else x :: insertDesc e xs

/-- The sort stage, by `totalVotes` descending (src/index.js:185). -/
def sortDesc : List Entry → List Entry
  | [] => []
  | x :: xs => insertDesc x (sortDesc xs)

/-- The whole leaderboard pipeline for a given `filter` value and clock
reading, over the vote records `rs`. -/
def leaderboard (filter : String) (now : NowParts) (rs : List VoteRecord) :
    List Entry :=
  sortDesc (stage2 (stage1 (matchedRecords filter now rs)))

/-- The distinct `(userName, debateId)` keys belonging to one user. -/
def userPairs (rs : List VoteRecord) (u : String) : List (String × String) :=
  (pairKeys rs).filter (fun k => decide (k.1 = u))

/-- The spec's worked example: records (alice, debateA, 3),
(alice, debateA, 2), (alice, debateB, 1). -/
def exampleVotes : List VoteRecord :=
  [⟨"alice", "debateA", 3, 0⟩, ⟨"alice", "debateA", 2, 0⟩,
   ⟨"alice", "debateB", 1, 0⟩]

/-- A concrete clock reading for witnesses. -/
def exampleNow : NowParts := ⟨2025, 9, 11⟩

/-- A store with one debate and no joined records, used as concrete
witness input. -/
def exampleStore : Store :=
  ⟨[⟨"0123456789abcdef01234567", "T", "Desc", ["t"], "Cat", "30", [], [], 0⟩], []⟩

/-- The store after `join(D1, alice, Support)` at time 1. -/
def stepStore1 : Store := (joinDebate exampleStore "0123456789abcdef01234567" "alice" "Support" 1).2

/-- The store after the further `join(D1, alice, Oppose)` at time 2. -/
def stepStore2 : Store := (joinDebate stepStore1 "0123456789abcdef01234567" "alice" "Oppose" 2).2

/-- A store whose single debate already (inconsistently) lists the name
on both sides, as witness input for C2. -/
def inconsistentStore : Store :=
  ⟨[⟨"0123456789abcdef01234567", "T", "Desc", ["t"], "Cat", "30", ["alice"], ["alice"], 0⟩], []⟩

/-! ### Generic lemmas about the store primitives -/

theorem find?_updateFirst (p : α → Bool) (f : α → α)
    (hf : ∀ a, p (f a) = p a) (l : List α) :
    (updateFirst p f l).find? p = (l.find? p).map f := by
  induction l with
  | nil => rfl
  | cons x xs ih =>
    by_cases hx : p x = true
    · simp [updateFirst, hx, List.find?_cons, hf]
    · simp only [Bool.not_eq_true] at hx
      simp [updateFirst, hx, List.find?_cons, ih]

theorem filter_updateFirst_const (p : α → Bool) (c : α) (hc : p c = true)
    (l : List α) (hl : l.any p = true) :
    (updateFirst p (fun _ => c) l).filter p = c :: (l.filter p).tail := by
  induction l with
  | nil => simp at hl
  | cons x xs ih =>
    by_cases hx : p x = true
    · simp [updateFirst, hx, List.filter_cons, hc]
    · simp only [Bool.not_eq_true] at hx
      simp only [List.any_cons, hx, Bool.false_or] at hl
      simp [updateFirst, hx, List.filter_cons, ih hl]

theorem find?_updateFirst_const (p : α → Bool) (c : α) (hc : p c = true)
    (l : List α) (hl : l.any p = true) :
    (updateFirst p (fun _ => c) l).find? p = some c := by
  induction l with
  | nil => simp at hl
  | cons x xs ih =>
    by_cases hx : p x = true
    · simp [updateFirst, hx, List.find?_cons, hc]
    · simp only [Bool.not_eq_true] at hx
      simp only [List.any_cons, hx, Bool.false_or] at hl
      simp [updateFirst, hx, List.find?_cons, ih hl]

theorem filter_append_single (p : α → Bool) (c : α) (hc : p c = true)
    (l : List α) (hl : l.any p = false) :
    (l ++ [c]).filter p = [c] := by
  have : l.filter p = [] := by
    simpa [List.filter_eq_nil_iff] using fun a ha => by
      have := List.any_eq_false.mp hl a ha
      simp [this]
  simp [List.filter_append, this, List.filter_cons, hc]

theorem find?_append_single (p : α → Bool) (c : α) (hc : p c = true)
    (l : List α) (hl : l.any p = false) :
    (l ++ [c]).find? p = some c := by
  induction l with
  | nil => simp [List.find?_cons, hc]
  | cons x xs ih =>
    simp only [List.any_cons, Bool.or_eq_false_iff] at hl
    simp [List.find?_cons, hl.1, ih hl.2]

/-! ### Join workflow lemmas -/

theorem jsToLower_Support : jsToLower "Support" = "support" := by decide

theorem jsToLower_Oppose : jsToLower "Oppose" = "oppose" := by decide

/-- Elimination of a successful join: the validation passed, the debate
was found, and the post-store is the result of the three writes applied
to the pre-store. -/
theorem joinDebate_ok (st : Store) (id name side : String) (now : Int)
    (s : String) (st' : Store)
    (h : joinDebate st id name side now = (JoinOutcome.ok s, st')) :
    name ≠ "" ∧ (side = "Support" ∨ side = "Oppose") ∧
      isValidObjectId id = true ∧ s = side ∧
      ∃ d, getDebate st id = some d ∧
        st' = ⟨addToSide id name side (pullBoth id name st.debates),
               upsertJoined id name side d now st.joined⟩ := by
  unfold joinDebate at h
  split at h
  · exact absurd (congrArg Prod.fst h) (by simp)
  · rename_i hvalid
    push_neg at hvalid
    split at h
    · exact absurd (congrArg Prod.fst h) (by simp)
    · rename_i hid
      rw [not_not] at hid
      split at h
      · exact absurd (congrArg Prod.fst h) (by simp)
      · rename_i d hd
        obtain ⟨h1, h2⟩ := Prod.mk.injEq .. ▸ h
        refine ⟨hvalid.1, hvalid.2, hid, ?_, d, hd, h2.symm⟩
        exact (JoinOutcome.ok.injEq .. ▸ h1).symm

theorem pullDoc_id (name : String) (d : Debate) : (pullDoc name d).id = d.id := rfl

theorem addDoc_id (side name : String) (d : Debate) : (addDoc side name d).id = d.id := by
  unfold addDoc
  split
  · rfl
  · split <;> rfl

/-- After a successful join, the referenced debate document is the old one
transformed by the pull step then the add step. -/
theorem getDebate_join_ok {st : Store} {id name side : String} {now : Int}
    {s : String} {st' : Store}
    (h : joinDebate st id name side now = (JoinOutcome.ok s, st')) :
    getDebate st' id = (getDebate st id).map (fun d => addDoc side name (pullDoc name d)) := by
  obtain ⟨-, -, -, -, d, hd, hst'⟩ := joinDebate_ok st id name side now s st' h
  subst hst'
  unfold getDebate at hd ⊢
  show List.find? _ (addToSide id name side (pullBoth id name st.debates)) = _
  unfold addToSide pullBoth
  rw [find?_updateFirst _ _ (fun a => by simp [addDoc_id]),
    find?_updateFirst _ _ (fun a => by simp [pullDoc_id]), hd]
  rfl

theorem mem_addToSet_self [DecidableEq α] (x : α) (l : List α) : x ∈ addToSet x l := by
  unfold addToSet
  split
  · assumption
  · simp

theorem not_mem_filter_ne_self [DecidableEq α] (x : α) (l : List α) :
    x ∉ l.filter (fun s => decide (s ≠ x)) := by
  simp [List.mem_filter]

theorem addDoc_Support (name : String) (d : Debate) :
    addDoc "Support" name d = { d with support := addToSet name d.support } := by
  rw [addDoc, if_pos jsToLower_Support]

theorem addDoc_Oppose (name : String) (d : Debate) :
    addDoc "Oppose" name d =
      { d with oppose := addToSet name d.oppose } := by
  rw [addDoc, if_neg (by rw [jsToLower_Oppose]; decide), if_pos jsToLower_Oppose]

/-- C1: for every debate D and name N, executing `join(D, N, Support)` and
then immediately `join(D, N, Oppose)` leaves N present in D's oppose set
and absent from D's support set. -/
theorem join_support_then_oppose (st st1 st2 : Store) (id name : String)
    (t1 t2 : Int) (s1 s2 : String)
    (_h1 : joinDebate st id name "Support" t1 = (JoinOutcome.ok s1, st1))
    (h2 : joinDebate st1 id name "Oppose" t2 = (JoinOutcome.ok s2, st2)) :
    ∃ d, getDebate st2 id = some d ∧ name ∈ d.oppose ∧ name ∉ d.support := by
  have hg := getDebate_join_ok h2
  obtain ⟨-, -, -, -, d1, hd1, -⟩ := joinDebate_ok st1 id name "Oppose" t2 s2 st2 h2
  rw [hd1] at hg
  refine ⟨addDoc "Oppose" name (pullDoc name d1), hg, ?_, ?_⟩
  · rw [addDoc_Oppose]
    exact mem_addToSet_self name _
  · rw [addDoc_Oppose]
    exact not_mem_filter_ne_self name d1.support

/-- Witness for C1 at a concrete store. -/
theorem join_support_then_oppose_witness :
    ∃ d, getDebate stepStore2 "0123456789abcdef01234567" = some d ∧
      "alice" ∈ d.oppose ∧ "alice" ∉ d.support :=
  join_support_then_oppose exampleStore stepStore1 stepStore2 "0123456789abcdef01234567" "alice" 1 2
    "Support" "Oppose" (by decide) (by decide)

/-- C2: after every successful `join(D, N, side)` — whatever the prior
state, including one where N was on both sides — N appears in at most one
of D's support/oppose sets. -/
theorem join_at_most_one_side (st st' : Store) (id name side : String)
    (t : Int) (s : String)
    (h : joinDebate st id name side t = (JoinOutcome.ok s, st')) :
    ∃ d, getDebate st' id = some d ∧ ¬(name ∈ d.support ∧ name ∈ d.oppose) := by
  obtain ⟨-, hside, -, -, d0, hd0, -⟩ := joinDebate_ok st id name side t s st' h
  have hg := getDebate_join_ok h
  rw [hd0] at hg
  refine ⟨addDoc side name (pullDoc name d0), hg, ?_⟩
  rcases hside with hs | hs <;> subst hs
  · rw [addDoc_Support]
    rintro ⟨-, hmem⟩
    exact not_mem_filter_ne_self name d0.oppose hmem
  · rw [addDoc_Oppose]
    rintro ⟨hmem, -⟩
    exact not_mem_filter_ne_self name d0.support hmem

/-- Witness for C2 starting from the inconsistent store. -/
theorem join_at_most_one_side_witness :
    ∃ d, getDebate (joinDebate inconsistentStore "0123456789abcdef01234567" "alice" "Support" 3).2 "0123456789abcdef01234567" =
        some d ∧ ¬("alice" ∈ d.support ∧ "alice" ∈ d.oppose) :=
  join_at_most_one_side inconsistentStore
    (joinDebate inconsistentStore "0123456789abcdef01234567" "alice" "Support" 3).2 "0123456789abcdef01234567" "alice"
    "Support" 3 "Support" (by decide)

/-- C4: when the name is empty or the side is any string other than
exactly "Support" or "Oppose" (lower-case variants included), the join
fails with InvalidArgument and the store is untouched. -/
theorem join_invalid_argument (st : Store) (id name side : String) (t : Int)
    (h : name = "" ∨ (side ≠ "Support" ∧ side ≠ "Oppose")) :
    joinDebate st id name side t = (JoinOutcome.invalidArgument, st) := by
  have hc : name = "" ∨ ¬(side = "Support" ∨ side = "Oppose") := by
    rcases h with h | h
    · exact Or.inl h
    · exact Or.inr (by push_neg; exact h)
  rw [joinDebate, if_pos hc]

/-- Witness for C4: the lower-case side "support" is rejected. -/
theorem join_invalid_argument_witness :
    joinDebate exampleStore "0123456789abcdef01234567" "alice" "support" 5 =
      (JoinOutcome.invalidArgument, exampleStore) :=
  join_invalid_argument exampleStore "0123456789abcdef01234567" "alice" "support" 5
    (Or.inr (by decide))

/-- C5 (amended): with a valid name and side, a debate identifier that is
a well-formed ObjectId string (24 hex characters) but matches no stored
debate makes the join fail with NotFound, leaving the store untouched.
The original claim quantified over every absent identifier, but a
malformed one makes `new ObjectId(id)` throw into the catch block and
the endpoint answers 500, not 404 (see the counterexample). -/
theorem join_not_found (st : Store) (id name side : String) (t : Int)
    (hn : name ≠ "") (hs : side = "Support" ∨ side = "Oppose")
    (hid : isValidObjectId id = true)
    (hd : getDebate st id = none) :
    joinDebate st id name side t = (JoinOutcome.notFound, st) := by
  rw [joinDebate, if_neg (by push_neg; exact ⟨hn, hs⟩),
    if_neg (not_not_intro hid), hd]

/-- Witness for the amended C5, at a well-formed identifier absent from
the store. -/
theorem join_not_found_witness :
    joinDebate exampleStore "ffffffffffffffffffffffff" "alice" "Support" 5 =
      (JoinOutcome.notFound, exampleStore) :=
  join_not_found exampleStore "ffffffffffffffffffffffff" "alice" "Support" 5
    (by decide) (Or.inl rfl) (by decide) (by decide)

/-- Counterexample to C5 as stated: the identifier "missing" corresponds
to no stored debate, yet the join answers the generic 500 server error
(the ObjectId constructor throws), not NotFound. -/
theorem join_not_found_counterexample :
    getDebate exampleStore "missing" = none ∧
      joinDebate exampleStore "missing" "alice" "Support" 5 =
        (JoinOutcome.serverError, exampleStore) ∧
      (joinDebate exampleStore "missing" "alice" "Support" 5).1 ≠
        JoinOutcome.notFound := by
  refine ⟨by decide, by decide, by decide⟩

/-- C9: whenever the join returns InvalidArgument or NotFound, no write
has been performed: the post store equals the pre store. -/
theorem join_error_preserves_store (st st2 : Store) (id name side : String)
    (t : Int) (o : JoinOutcome)
    (hj : joinDebate st id name side t = (o, st2))
    (h : o = JoinOutcome.invalidArgument ∨ o = JoinOutcome.notFound) :
    st2 = st := by
  unfold joinDebate at hj
  split at hj
  · injection hj with _h1 h2
    exact h2.symm
  · split at hj
    · injection hj with h1 h2
      rcases h with h | h <;> rw [← h1] at h <;> exact absurd h (by simp)
    · split at hj
      · injection hj with _h1 h2
        exact h2.symm
      · injection hj with h1 h2
        rcases h with h | h <;> rw [← h1] at h <;> exact absurd h (by simp)

/-- Witness for C9 on the NotFound path. -/
theorem join_error_preserves_store_witness : exampleStore = exampleStore :=
  join_error_preserves_store exampleStore exampleStore
    "ffffffffffffffffffffffff" "alice" "Support" 5 JoinOutcome.notFound
    (by decide) (Or.inr rfl)

/-- C10: on every successful join, the upserted joined-debate record
snapshots the denormalized fields (title, description, category, duration,
tags) from the debate document as read at the start of the workflow (the
pre-call store), stores the caller's capitalized side string and the fresh
timestamp. -/
theorem join_snapshot (st st' : Store) (id name side : String) (t : Int)
    (s : String)
    (h : joinDebate st id name side t = (JoinOutcome.ok s, st')) :
    ∃ d, getDebate st id = some d ∧
      getJoined st' id name = some
        { debateId := id, name := name, side := side, title := d.title,
          description := d.description, category := d.category,
          duration := d.duration, tags := d.tags, joinedAt := t } := by
  obtain ⟨-, -, -, -, d, hd, hst'⟩ := joinDebate_ok st id name side t s st' h
  subst hst'
  refine ⟨d, hd, ?_⟩
  show (upsertJoined id name side d t st.joined).find? _ = _
  unfold upsertJoined
  split
  · rename_i hany
    exact find?_updateFirst_const _ _ (by simp) _ hany
  · rename_i hany
    exact find?_append_single _ _ (by simp) _ (by simpa using hany)

theorem tail_eq_nil_of_length_le_one {l : List α} (h : l.length ≤ 1) :
    l.tail = [] := by
  match l with
  | [] => rfl
  | [a] => rfl
  | a :: b :: l2 => simp at h

/-- One successful join leaves exactly one joined-debate record for the
key, stamped with this call's clock value, provided the pre-state had at
most one record for the key. -/
theorem join_ok_joined_filter (st st' : Store) (id name side : String)
    (t : Int) (s : String)
    (h : joinDebate st id name side t = (JoinOutcome.ok s, st'))
    (hpre : countJoined st id name ≤ 1) :
    (st'.joined.filter (fun j => decide (j.debateId = id ∧ j.name = name))).map
      (fun j => j.joinedAt) = [t] := by
  obtain ⟨-, -, -, -, d, hd, hst'⟩ := joinDebate_ok st id name side t s st' h
  subst hst'
  show ((upsertJoined id name side d t st.joined).filter _).map _ = _
  unfold upsertJoined
  split
  · rename_i hany
    rw [filter_updateFirst_const _ _ (by simp) _ hany,
      tail_eq_nil_of_length_le_one hpre]
    rfl
  · rename_i hany
    rw [filter_append_single _ _ (by simp) _ (by simpa using hany)]
    rfl

/-- C3: any nonempty sequence of repeated successful `join(D, N, side)`
calls, starting from a store with at most one joined-debate record for
`(D, N)`, leaves exactly one record for `(D, N)`, and its join timestamp
is the one written by the latest call. -/
theorem join_seq_single_record (id name side : String) (ts : List Int)
    (tl : Int) : ∀ (st st' : Store), ts.getLast? = some tl →
      countJoined st id name ≤ 1 →
      joinSeq st id name side ts = some st' →
      countJoined st' id name = 1 ∧
        (st'.joined.filter (fun j => decide (j.debateId = id ∧ j.name = name))).map
          (fun j => j.joinedAt) = [tl] := by
  induction ts with
  | nil =>
    intro st st' hlast
    simp at hlast
  | cons t ts ih =>
    intro st st' hlast hpre hseq
    unfold joinSeq at hseq
    rcases hj : joinDebate st id name side t with ⟨o, st1⟩
    rw [hj] at hseq
    cases o with
    | invalidArgument => exact Option.noConfusion hseq
    | notFound => exact Option.noConfusion hseq
    | serverError => exact Option.noConfusion hseq
    | ok s =>
      have hstep := join_ok_joined_filter st st1 id name side t s hj hpre
      have hcount1 : countJoined st1 id name = 1 := by
        have := congrArg List.length hstep
        simpa [countJoined] using this
      cases ts with
      | nil =>
        have hst' : st1 = st' := by
          simpa [joinSeq] using hseq
        subst hst'
        simp only [List.getLast?_singleton, Option.some.injEq] at hlast
        subst hlast
        exact ⟨hcount1, hstep⟩
      | cons t2 ts2 =>
        have hlast' : (t2 :: ts2).getLast? = some tl := by
          rwa [List.getLast?_cons_cons] at hlast
        exact ih st1 st' hlast' (le_of_eq hcount1) hseq

/-- Witness for C3: three repeated joins on the example store. -/
theorem join_seq_single_record_witness :
    countJoined (joinSeq exampleStore "0123456789abcdef01234567" "alice" "Support" [1, 2, 3]).get!
        "0123456789abcdef01234567" "alice" = 1 ∧
      (((joinSeq exampleStore "0123456789abcdef01234567" "alice" "Support" [1, 2, 3]).get!.joined.filter
          (fun j => decide (j.debateId = "0123456789abcdef01234567" ∧ j.name = "alice"))).map
        (fun j => j.joinedAt)) = [3] :=
  join_seq_single_record "0123456789abcdef01234567" "alice" "Support" [1, 2, 3] 3 exampleStore
    (joinSeq exampleStore "0123456789abcdef01234567" "alice" "Support" [1, 2, 3]).get! (by decide)
    (by decide) (by decide)

/-- Witness for C10 at a concrete store. -/
theorem join_snapshot_witness :
    ∃ d, getDebate exampleStore "0123456789abcdef01234567" = some d ∧
      getJoined stepStore1 "0123456789abcdef01234567" "alice" = some
        { debateId := "0123456789abcdef01234567", name := "alice", side := "Support",
          title := d.title, description := d.description,
          category := d.category, duration := d.duration, tags := d.tags,
          joinedAt := 1 } :=
  join_snapshot exampleStore stepStore1 "0123456789abcdef01234567" "alice" "Support" 1 "Support"
    (by decide)
/-! ### Leaderboard lemmas -/

theorem filter_map_comm (f : α → β) (p : β → Bool) (l : List α) :
    (l.map f).filter p = (l.filter (fun a => p (f a))).map f := by
  induction l with
  | nil => rfl
  | cons x xs ih =>
    by_cases hx : p (f x) = true
    · simp [List.filter_cons, hx, ih]
    · simp only [Bool.not_eq_true] at hx
      simp [List.filter_cons, hx, ih]

theorem sum_map_add (l : List α) (f g : α → Int) :
    (l.map (fun a => f a + g a)).sum = (l.map f).sum + (l.map g).sum := by
  induction l with
  | nil => simp
  | cons x xs ih =>
    simp [ih]
    ring

theorem sum_map_ite_zero [DecidableEq κ] (ks : List κ) (k0 : κ) (v : Int)
    (h : k0 ∉ ks) : (ks.map (fun k => if k0 = k then v else 0)).sum = 0 := by
  induction ks with
  | nil => rfl
  | cons k ks ih =>
    simp only [List.mem_cons, not_or] at h
    simp [if_neg h.1, ih h.2]

theorem sum_map_ite_single [DecidableEq κ] (ks : List κ) (k0 : κ) (v : Int)
    (hnd : ks.Nodup) (hmem : k0 ∈ ks) :
    (ks.map (fun k => if k0 = k then v else 0)).sum = v := by
  induction ks with
  | nil => simp at hmem
  | cons k ks ih =>
    rcases List.nodup_cons.mp hnd with ⟨hk, hnd'⟩
    rcases List.mem_cons.mp hmem with h | h
    · subst h
      simp [sum_map_ite_zero ks k0 v hk]
    · have hne : k0 ≠ k := fun he => hk (he ▸ h)
      simp [if_neg hne, ih hnd' h]

theorem subtotal_cons (r : VoteRecord) (rs : List VoteRecord)
    (k : String × String) :
    subtotal (r :: rs) k =
      (if (r.userName, r.debateId) = k then r.votes else 0) + subtotal rs k := by
  unfold subtotal
  by_cases hc : r.userName = k.1 ∧ r.debateId = k.2
  · rw [List.filter_cons_of_pos (by simpa using hc), if_pos (by simp [Prod.ext_iff]; exact hc)]
    simp
  · rw [List.filter_cons_of_neg (by simpa using hc),
      if_neg (by rw [Prod.ext_iff]; exact hc)]
    simp

/-- Summing the per-(user, debate) subtotals over any duplicate-free key
cover of one user's records gives that user's total votes. -/
theorem sum_subtotals (u : String) (rs : List VoteRecord)
    (ks : List (String × String)) (hnd : ks.Nodup)
    (hcov : ∀ r ∈ rs, r.userName = u → (r.userName, r.debateId) ∈ ks)
    (hall : ∀ k ∈ ks, k.1 = u) :
    (ks.map (fun k => subtotal rs k)).sum =
      ((rs.filter (fun r => decide (r.userName = u))).map (fun r => r.votes)).sum := by
  induction rs with
  | nil => simp [subtotal]
  | cons r rs ih =>
    have ih' := ih (fun r' hr' => hcov r' (List.mem_cons_of_mem _ hr'))
    have hmapeq : ks.map (fun k => subtotal (r :: rs) k) =
        ks.map (fun k =>
          (if (r.userName, r.debateId) = k then r.votes else 0) + subtotal rs k) :=
      List.map_congr_left (fun k _ => subtotal_cons r rs k)
    rw [hmapeq, sum_map_add]
    by_cases hu : r.userName = u
    · have hkmem : (r.userName, r.debateId) ∈ ks := hcov r (List.mem_cons_self r rs) hu
      rw [sum_map_ite_single ks _ _ hnd hkmem, ih',
        List.filter_cons_of_pos (by simpa using hu)]
      simp
    · have hknot : (r.userName, r.debateId) ∉ ks := by
        intro hmem
        exact hu (hall _ hmem)
      rw [sum_map_ite_zero ks _ _ hknot, ih',
        List.filter_cons_of_neg (by simpa using hu)]
      simp

theorem mem_pairKeys (rs : List VoteRecord) (k : String × String) :
    k ∈ pairKeys rs ↔ ∃ r ∈ rs, r.userName = k.1 ∧ r.debateId = k.2 := by
  unfold pairKeys
  rw [List.mem_dedup, List.mem_map]
  constructor
  · rintro ⟨r, hr, rfl⟩
    exact ⟨r, hr, rfl, rfl⟩
  · rintro ⟨r, hr, h1, h2⟩
    exact ⟨r, hr, by rw [Prod.ext_iff]; exact ⟨h1, h2⟩⟩

theorem nodup_userPairs (rs : List VoteRecord) (u : String) :
    (userPairs rs u).Nodup :=
  (List.nodup_dedup _).filter _

theorem mem_userPairs (rs : List VoteRecord) (u : String) (k : String × String) :
    k ∈ userPairs rs u ↔ k ∈ pairKeys rs ∧ k.1 = u := by
  unfold userPairs
  simp [List.mem_filter]

/-- The user's distinct-pair count equals the number of distinct debates
in which the user has a record. -/
theorem userPairs_length (rs : List VoteRecord) (u : String) :
    (userPairs rs u).length =
      ((rs.filter (fun r => decide (r.userName = u))).map
        (fun r => r.debateId)).toFinset.card := by
  have hnd : (userPairs rs u).Nodup := nodup_userPairs rs u
  have hmap : ((userPairs rs u).map Prod.snd).Nodup := by
    refine hnd.map_on ?_
    intro x hx y hy hxy
    have hx1 := ((mem_userPairs rs u x).mp hx).2
    have hy1 := ((mem_userPairs rs u y).mp hy).2
    rw [Prod.ext_iff]
    exact ⟨hx1.trans hy1.symm, hxy⟩
  have hset : ((userPairs rs u).map Prod.snd).toFinset =
      ((rs.filter (fun r => decide (r.userName = u))).map
        (fun r => r.debateId)).toFinset := by
    ext d
    simp only [List.mem_toFinset, List.mem_map, List.mem_filter,
      decide_eq_true_eq]
    constructor
    · rintro ⟨k, hk, rfl⟩
      obtain ⟨hkp, hk1⟩ := (mem_userPairs rs u k).mp hk
      obtain ⟨r, hr, hr1, hr2⟩ := (mem_pairKeys rs k).mp hkp
      exact ⟨r, ⟨hr, hr1.trans hk1⟩, hr2⟩
    · rintro ⟨r, ⟨hr, hru⟩, rfl⟩
      refine ⟨(u, r.debateId), ?_, rfl⟩
      rw [mem_userPairs]
      exact ⟨(mem_pairKeys rs _).mpr ⟨r, hr, hru, rfl⟩, rfl⟩
  calc (userPairs rs u).length
      = ((userPairs rs u).map Prod.snd).length := (List.length_map _ _).symm
    _ = ((userPairs rs u).map Prod.snd).toFinset.card :=
        (List.toFinset_card_of_nodup hmap).symm
    _ = _ := by rw [hset]

theorem mem_insertDesc (e x : Entry) (l : List Entry) :
    x ∈ insertDesc e l ↔ x ∈ e :: l := by
  induction l with
  | nil => simp [insertDesc]
  | cons y ys ih =>
    unfold insertDesc
    split
    · simp
    · simp only [List.mem_cons, ih, List.mem_cons]
      tauto

theorem mem_sortDesc (x : Entry) (l : List Entry) :
    x ∈ sortDesc l ↔ x ∈ l := by
  induction l with
  | nil => simp [sortDesc]
  | cons y ys ih =>
    unfold sortDesc
    rw [mem_insertDesc]
    simp [ih]

/-- The stage-1 rows carrying one user's name are exactly the rows built
from that user's distinct pairs. -/
theorem stage1_filter_user (rs : List VoteRecord) (u : String) :
    (stage1 rs).filter (fun w => decide (w.userName = u)) =
      (userPairs rs u).map (rowOf rs) := by
  unfold stage1
  rw [filter_map_comm]
  rfl

theorem mem_stage2_eq (rows : List Row) (e : Entry) (h : e ∈ stage2 rows) :
    e = entryOf rows e.userName := by
  obtain ⟨u, -, rfl⟩ := List.mem_map.mp h
  rfl

/-- C6: with `filter=all`, every leaderboard entry's `totalVotes` is the
sum of vote counts over all of that user's records, and its
`debatesParticipated` is the number of distinct debates in which the user
has at least one record. -/
theorem leaderboard_all_totals (now : NowParts) (rs : List VoteRecord)
    (e : Entry) (h : e ∈ leaderboard "all" now rs) :
    e.totalVotes =
      ((rs.filter (fun r => decide (r.userName = e.userName))).map
        (fun r => r.votes)).sum ∧
    e.debatesParticipated =
      (((rs.filter (fun r => decide (r.userName = e.userName))).map
        (fun r => r.debateId)).toFinset.card : Int) := by
  have hall : matchedRecords "all" now rs = rs := rfl
  unfold leaderboard at h
  rw [hall, mem_sortDesc] at h
  have he := mem_stage2_eq _ _ h
  have h1 : e.totalVotes =
      (((stage1 rs).filter (fun w => decide (w.userName = e.userName))).map
        (fun w => w.totalVotesPerDebate)).sum :=
    congrArg Entry.totalVotes he
  have h2 : e.debatesParticipated =
      ((((stage1 rs).filter (fun w => decide (w.userName = e.userName))).length : Nat) : Int) :=
    congrArg Entry.debatesParticipated he
  constructor
  · rw [stage1_filter_user, List.map_map] at h1
    refine h1.trans ?_
    refine sum_subtotals e.userName rs (userPairs rs e.userName)
      (nodup_userPairs rs e.userName) ?_ ?_
    · intro r hr hru
      rw [mem_userPairs]
      exact ⟨(mem_pairKeys rs _).mpr ⟨r, hr, rfl, rfl⟩, hru⟩
    · intro k hk
      exact ((mem_userPairs rs e.userName k).mp hk).2
  · rw [stage1_filter_user, List.length_map, userPairs_length] at h2
    exact h2

/-- Witness for C6: the spec's worked example yields totalVotes 6 and
debatesParticipated 2 for alice. -/
theorem leaderboard_all_totals_witness :
    (⟨"alice", 6, 2⟩ : Entry) ∈ leaderboard "all" exampleNow exampleVotes ∧
      ((6 : Int) =
        ((exampleVotes.filter (fun r => decide (r.userName = "alice"))).map
          (fun r => r.votes)).sum ∧
       (2 : Int) =
        (((exampleVotes.filter (fun r => decide (r.userName = "alice"))).map
          (fun r => r.debateId)).toFinset.card : Int)) :=
  ⟨by decide,
    leaderboard_all_totals exampleNow exampleVotes ⟨"alice", 6, 2⟩ (by decide)⟩

theorem civilDays_sub (y m d k : Int) :
    civilDays y m (d - k) = civilDays y m d - k := by
  simp only [civilDays]
  split_ifs <;> omega

/-- C7: with `filter=weekly` the pipeline keeps exactly the records whose
timestamp is at or after the weekly start date, the weekly start date is
the midnight of the current civil date moved back 7 calendar days (not
"now minus 168 hours"), and with `filter=all` no record is excluded. -/
theorem leaderboard_weekly_window (now : NowParts) (rs : List VoteRecord)
    (r : VoteRecord) :
    (r ∈ matchedRecords "weekly" now rs ↔
      r ∈ rs ∧ weeklyStart now ≤ r.createdAt) ∧
    weeklyStart now = 86400000 * (jsDateDays now.year now.month now.day - 7) ∧
    matchedRecords "all" now rs = rs := by
  refine ⟨?_, ?_, rfl⟩
  · unfold matchedRecords
    rw [if_pos rfl]
    simp [List.mem_filter]
  · unfold weeklyStart jsDateMs
    congr 1
    unfold jsDateDays
    exact civilDays_sub _ _ _ _

/-- C8: every filter value other than "weekly" and "monthly" — in
particular every value outside the enumerated set — produces exactly the
`filter=all` result, with no error. -/
theorem leaderboard_fallback_all (f : String) (now : NowParts)
    (rs : List VoteRecord)
    (h : f ∉ (["all", "weekly", "monthly"] : List String)) :
    leaderboard f now rs = leaderboard "all" now rs := by
  simp only [List.mem_cons, List.not_mem_nil, or_false, not_or] at h
  unfold leaderboard matchedRecords
  rw [if_neg h.2.1, if_neg h.2.2,
    if_neg (by decide : ¬("all" : String) = "weekly"),
    if_neg (by decide : ¬("all" : String) = "monthly")]

/-- Witness for C8 at the unknown filter value "bogus". -/
theorem leaderboard_fallback_all_witness :
    leaderboard "bogus" exampleNow exampleVotes =
      leaderboard "all" exampleNow exampleVotes :=
  leaderboard_fallback_all "bogus" exampleNow exampleVotes (by decide)

end DebateArena
